import Mathlib

/-!
Shallow embedding of `app/core/ssrf_protection.py` from the Smart-Agriculture
repository: URL validation against non-public IP address classes, DNS-rebinding
safe request construction (connect to the vetted IP, keep the original hostname
in the Host header), and streaming downloads with content-type and size policy.

External effects are passed in as explicit function parameters:
* `parseIP` models the `ipaddress.ip_address` classification oracle (with a
  concrete executable IPv4 instance `parseIPv4` below),
* `dns` models `socket.getaddrinfo` (a hostname to a list of address strings),
* `net` models the HTTP transport (the final response delivered to the
  application code after redirect following, or a transport-level exception).

String operations from Python (`str.lower`, `str.strip`, `str.split`,
`str.startswith`, `int(...)`, f-string number rendering) are modelled by
executable character-list functions restricted to ASCII, which is the data
domain of hostnames, MIME types, ports and header names in this module.
-/

namespace SSRF

/-- ASCII lower-casing of one character (`str.lower` on the ASCII range). -/
def lowerChar (c : Char) : Char :=
  if 65 ≤ c.toNat ∧ c.toNat ≤ 90 then Char.ofNat (c.toNat + 32) else c

/-- Model of Python `str.lower()` restricted to ASCII data. -/
def lowerStr (s : String) : String := ⟨s.data.map lowerChar⟩

/-- Model of Python `str.startswith(p)`. -/
def strStartsWith (s p : String) : Bool := p.data.isPrefixOf s.data

/-- Decides whether `n` occurs as a contiguous run inside `h`. -/
def seqContains (h n : List Char) : Bool :=
  match h with
  | [] => n.isEmpty
  | c :: t => n.isPrefixOf (c :: t) || seqContains t n

/-- Substring occurrence test on strings (`needle in hay` in Python). -/
def strContains (hay needle : String) : Bool := seqContains hay.data needle.data

/-- Default whitespace stripped by Python `str.strip()` (ASCII part). -/
def pyIsSpace (c : Char) : Bool :=
  c == ' ' || c == '\t' || c == '\n' || c == '\r' || c == '\x0b' || c == '\x0c'

/-- Model of `str.strip()` on a character list. -/
def trimChars (l : List Char) : List Char :=
  ((l.dropWhile pyIsSpace).reverse.dropWhile pyIsSpace).reverse

/-- Model of `value.split(";")[0].strip().lower()`: MIME type normalisation as
performed on the response Content-Type header. -/
def normalizeContentType (raw : String) : String :=
  ⟨(trimChars (raw.data.takeWhile (fun c => c != ';'))).map lowerChar⟩

/-- Decimal digit character; the fallback is never reached for `d < 10`. -/
def digChar (d : Nat) : Char :=
  if d = 0 then '0' else if d = 1 then '1' else if d = 2 then '2' else if d = 3 then '3'
  else if d = 4 then '4' else if d = 5 then '5' else if d = 6 then '6' else if d = 7 then '7'
  else if d = 8 then '8' else if d = 9 then '9' else '*'

/-- Fuel-driven decimal digit expansion (most significant digit first once the
accumulator is reversed into place). -/
def natDigitsAux : Nat → Nat → List Char → List Char
  | 0, _, acc => acc
  | fuel + 1, n, acc =>
    if n < 10 then digChar n :: acc
    else natDigitsAux fuel (n / 10) (digChar (n % 10) :: acc)

/-- Decimal rendering of a natural number (f-string `{n}` in the source). -/
def natToStr (n : Nat) : String := ⟨natDigitsAux (n + 1) n []⟩

/-- Parses a non-empty all-digit character list as a decimal number. -/
def parseDigits (l : List Char) : Option Nat :=
  if l ≠ [] ∧ l.all (fun c => c.isDigit) then
    some (l.foldl (fun a c => a * 10 + (c.toNat - 48)) 0)
  else none

/-- Model of Python `int(s)` on header values: decimal with an optional minus
sign; anything else raises `ValueError` (which this module does not catch). -/
def parseCLInt (s : String) : Option Int :=
  match s.data with
  | '-' :: rest => (parseDigits rest).map (fun n => -(n : Int))
  | l => (parseDigits l).map (fun n => (n : Int))

/-- Splits a character list on a separator character (Python `str.split(sep)`,
which always returns at least one group). -/
def splitOnChar (sep : Char) : List Char → List (List Char)
  | [] => [[]]
  | c :: rest =>
    let r := splitOnChar sep rest
    if c == sep then [] :: r
    else
      match r with
      | [] => [[c]]
      | g :: gs => (c :: g) :: gs

/-- Address-class predicates as computed by Python's `ipaddress` module for one
parsed address; the validator consumes exactly these five booleans, in this
order. -/
structure IPFlags where
  is_loopback : Bool
  is_link_local : Bool
  is_private : Bool
  is_reserved : Bool
  is_multicast : Bool
deriving DecidableEq

/-- An address is non-public when any of the five checked classes holds. -/
def unsafeFlags (f : IPFlags) : Bool :=
  f.is_loopback || f.is_link_local || f.is_private || f.is_reserved || f.is_multicast

/-- Membership of the dotted quad `a.b.c.d` in the `ipaddress` module's IPv4
private networks (the superset of RFC 1918 used by `IPv4Address.is_private`). -/
def ipv4IsPrivate (a b c d : Nat) : Bool :=
  a == 0 || a == 10 || a == 127 || (a == 169 && b == 254) ||
  (a == 172 && decide (16 ≤ b ∧ b ≤ 31)) ||
  (a == 192 && b == 0 && c == 0 && decide (d ≤ 7)) ||
  (a == 192 && b == 0 && c == 0 && (d == 170 || d == 171)) ||
  (a == 192 && b == 0 && c == 2) || (a == 192 && b == 168) ||
  (a == 198 && (b == 18 || b == 19)) || (a == 198 && b == 51 && c == 100) ||
  (a == 203 && b == 0 && c == 113) || decide (240 ≤ a)

/-- Classification of an IPv4 address `a.b.c.d`, following the `ipaddress`
module: loopback 127.0.0.0/8, link-local 169.254.0.0/16, reserved 240.0.0.0/4,
multicast 224.0.0.0/4. -/
def ipv4Flags (a b c d : Nat) : IPFlags :=
  { is_loopback := a == 127
    is_link_local := a == 169 && b == 254
    is_private := ipv4IsPrivate a b c d
    is_reserved := decide (240 ≤ a)
    is_multicast := decide (224 ≤ a ∧ a ≤ 239) }

/-- Parses one decimal octet (0-255). -/
def decOctet (l : List Char) : Option Nat :=
  match parseDigits l with
  | some n => if n ≤ 255 then some n else none
  | none => none

/-- Executable instance of the address-parsing oracle: classifies dotted-quad
IPv4 literals; anything else is treated as unparseable (`ValueError` inside the
per-address `try` block, which skips the address). -/
def parseIPv4 (s : String) : Option IPFlags :=
  match (splitOnChar '.' s.data).mapM decOctet with
  | some [a, b, c, d] => some (ipv4Flags a b c d)
  | _ => none

/-- Constant `ALLOWED_SCHEMES` from the source. -/
def ALLOWED_SCHEMES : List String := ["http", "https"]

/-- Constant `ALLOWED_IMAGE_TYPES` from the source. -/
def ALLOWED_IMAGE_TYPES : List String :=
  ["image/jpeg", "image/jpg", "image/png", "image/gif", "image/webp", "image/bmp"]

/-- Constant `MAX_IMAGE_SIZE_BYTES` from the source (10 MiB). -/
def MAX_IMAGE_SIZE_BYTES : Nat := 10 * 1024 * 1024

/-- Chunk size used by both streaming loops (`chunk_size=8192`). -/
def CHUNK_SIZE : Nat := 8192

/-- Hostname strings rejected outright before DNS resolution (step 4 of
`validate_image_url`). -/
def LOCALHOST_DENYLIST : List String :=
  ["localhost", "127.0.0.1", "::1", "0.0.0.0", "127.0.1.1"]

/-- Result of `urllib.parse.urlparse` on the input URL, as consumed by this
module. `host` keeps the casing written in the URL; the `.hostname` accessor
of the parse result lower-cases it, modelled by `lowerStr` at its use sites.
An absent host component is represented by the empty string (`if not hostname`
catches both `None` and `""`). The `params` component is not modelled (it is
empty for every URL this module handles and is carried through unchanged). -/
structure URL where
  scheme : String
  host : String
  port : Option Nat
  path : String
  query : String
  fragment : String
deriving DecidableEq

/-- Raw URL string together with its parse: the code calls `urlparse(url)` and
keeps using both the raw string (in error messages) and the parse result. -/
structure URLInput where
  raw : String
  parsed : URL
deriving DecidableEq

/-- Exceptions of the `socket.getaddrinfo` call: `socket.timeout` or
`socket.gaierror` / other `OSError`. -/
inductive SockErr
  | timeout
  | gaierror (msg : String)
deriving DecidableEq

/-- Which address-class check fired for a resolved address. -/
inductive IPKind
  | loopback
  | linkLocal
  | privateAddr
  | reserved
  | multicast
deriving DecidableEq

/-- Raise sites of `SSRFValidationError`, each carrying its f-string payload. -/
inductive ValErr
  | badScheme (scheme : String)
  | missingHost
  | blockedHostString (hostname : String)
  | blockedHostPattern (hostname : String)
  | dnsTimeout (hostname : String)
  | dnsFailure (hostname msg : String)
  | noAddresses (hostname : String)
  | blockedIP (kind : IPKind) (hostname ip : String)
  | allBlocked (hostname : String)
deriving DecidableEq

/-- Exact `SSRFValidationError` message for each raise site. -/
def renderVal : ValErr → String
  | .badScheme s => "不支持的协议: " ++ s ++ ". 仅允许: (http, https)"
  | .missingHost => "URL 缺少主机名"
  | .blockedHostString h => "禁止访问 localhost/回环地址: " ++ h
  | .blockedHostPattern h => "禁止访问私有地址: " ++ h
  | .dnsTimeout h => "DNS 查询超时: " ++ h
  | .dnsFailure h m => "DNS 解析失败: " ++ h ++ " - " ++ m
  | .noAddresses h => "域名未解析到任何 IP 地址: " ++ h
  | .blockedIP .loopback h ip => "禁止访问回环地址: " ++ h ++ " -> " ++ ip
  | .blockedIP .linkLocal h ip => "禁止访问链路本地地址: " ++ h ++ " -> " ++ ip
  | .blockedIP .privateAddr h ip => "禁止访问私有地址: " ++ h ++ " -> " ++ ip ++ " (RFC 1918)"
  | .blockedIP .reserved h ip => "禁止访问保留地址: " ++ h ++ " -> " ++ ip
  | .blockedIP .multicast h ip => "禁止访问多播地址: " ++ h ++ " -> " ++ ip
  | .allBlocked h => "域名 " ++ h ++ " 的所有 IP 地址都是内网/保留地址"

/-- Helper for `dict.fromkeys`-style deduplication keeping first occurrences. -/
def dedupAux (seen : List String) : List String → List String
  | [] => []
  | x :: xs => if x ∈ seen then dedupAux seen xs else x :: dedupAux (x :: seen) xs

/-- Model of `list(dict.fromkeys(...))`: removes duplicate address strings,
keeping the first occurrence of each in resolver order. -/
def dedupFirst (l : List String) : List String := dedupAux [] l

/-- Loop of step 7 of `validate_image_url`: classify every resolved address,
raising on the first non-public one, skipping unparseable ones (the
`except ValueError: continue` branch), and collecting the public ones in
order. -/
def checkIPs (parseIP : String → Option IPFlags) (hostname : String) :
    List String → Except ValErr (List String)
  | [] => .ok []
  | ip :: rest =>
    match parseIP ip with
    | none => checkIPs parseIP hostname rest
    | some f =>
      if f.is_loopback then .error (.blockedIP .loopback hostname ip)
      else if f.is_link_local then .error (.blockedIP .linkLocal hostname ip)
      else if f.is_private then .error (.blockedIP .privateAddr hostname ip)
      else if f.is_reserved then .error (.blockedIP .reserved hostname ip)
      else if f.is_multicast then .error (.blockedIP .multicast hostname ip)
      else (checkIPs parseIP hostname rest).map (fun l => ip :: l)

/-- Instrumented embedding of `validate_image_url`; the second component is the
sequence of `socket.setdefaulttimeout` calls performed (`some 5` for the DNS
timeout, `none` for the unconditional reset in the `finally` block). The trace
is empty exactly when the function raises before the DNS-resolution step. -/
def validate_image_url_traced (parseIP : String → Option IPFlags)
    (dns : String → Except SockErr (List String)) (url : URL) :
    Except ValErr (String × String) × List (Option Nat) :=
  if ¬ (ALLOWED_SCHEMES.contains url.scheme) then (.error (.badScheme url.scheme), [])
  else if lowerStr url.host = "" then (.error .missingHost, [])
  else if LOCALHOST_DENYLIST.contains (lowerStr (lowerStr url.host)) then
    (.error (.blockedHostString (lowerStr url.host)), [])
  else if strStartsWith (lowerStr (lowerStr url.host)) "127." ||
      strStartsWith (lowerStr (lowerStr url.host)) "192.168." ||
      strStartsWith (lowerStr (lowerStr url.host)) "10." then
    (.error (.blockedHostPattern (lowerStr url.host)), [])
  else
    match dns (lowerStr url.host) with
    | .error .timeout => (.error (.dnsTimeout (lowerStr url.host)), [some 5, none])
    | .error (.gaierror m) => (.error (.dnsFailure (lowerStr url.host) m), [some 5, none])
    | .ok rawAddrs =>
      if dedupFirst rawAddrs = [] then
        (.error (.noAddresses (lowerStr url.host)), [some 5, none])
      else
        match checkIPs parseIP (lowerStr url.host) (dedupFirst rawAddrs) with
        | .error e => (.error e, [some 5, none])
        | .ok public_ips =>
          match public_ips with
          | [] => (.error (.allBlocked (lowerStr url.host)), [some 5, none])
          | selected_ip :: _ => (.ok (selected_ip, lowerStr url.host), [some 5, none])

/-- Embedding of `validate_image_url` (result only). -/
def validate_image_url (parseIP : String → Option IPFlags)
    (dns : String → Except SockErr (List String)) (url : URL) :
    Except ValErr (String × String) :=
  (validate_image_url_traced parseIP dns url).1

/-- Final process-wide socket default timeout after a sequence of
`setdefaulttimeout` calls, starting from `t0`. -/
def applyTimeoutTrace (t0 : Option Nat) (trace : List (Option Nat)) : Option Nat :=
  trace.foldl (fun _ v => v) t0

/-- Final HTTP response delivered to the application code (after the transport
followed any redirects): status, headers, and the body as the chunk sequence
the streaming iterator yields. -/
structure HResp where
  status : Nat
  headers : List (String × String)
  chunks : List (List Nat)
deriving DecidableEq

/-- Transport outcome: a response, a timeout exception, or another request
exception. -/
inductive NetOutcome
  | success (r : HResp)
  | timedOut
  | connError (msg : String)
deriving DecidableEq

/-- Outbound request as constructed by both downloaders. -/
structure SentReq where
  target : String
  hostHeader : String
  userAgent : String
deriving DecidableEq

/-- Raise sites of the download phase. `intValueError` is the uncaught
`ValueError` that `int(content_length)` raises on a malformed header; every
other constructor is an `ImageDownloadError`. -/
inductive DlErr
  | validationFailed (reason : String)
  | timedOut (url : String)
  | httpError (status : Nat) (url : String)
  | requestFailed (msg url : String)
  | badContentType (contentType : String)
  | tooLargeDeclared (declared : String) (maxSize : Nat)
  | tooLargeStreamed (received maxSize : Nat)
  | intValueError (literal : String)
deriving DecidableEq

/-- Exact failure message for each download-phase raise site. -/
def renderDl : DlErr → String
  | .validationFailed r => "URL 验证失败: " ++ r
  | .timedOut u => "下载超时: " ++ u
  | .httpError s u => "HTTP 错误: " ++ natToStr s ++ " - " ++ u
  | .requestFailed m u => "下载失败: " ++ m ++ " - " ++ u
  | .badContentType ct =>
      "不支持的文件类型: " ++ ct ++
      ". 仅允许图片类型: (image/jpeg, image/jpg, image/png, image/gif, image/webp, image/bmp)"
  | .tooLargeDeclared d m => "文件过大: " ++ d ++ " 字节（最大允许 " ++ natToStr m ++ " 字节）"
  | .tooLargeStreamed n m =>
      "文件过大: 已下载 " ++ natToStr n ++ " 字节（最大允许 " ++ natToStr m ++ " 字节）"
  | .intValueError l => "invalid literal for int() with base 10: " ++ l

/-- True for the failures surfaced as `ImageDownloadError`; the `ValueError`
escape is a crash, not a `DownloadFailure`. -/
def isDownloadFailure : DlErr → Bool
  | .intValueError _ => false
  | _ => true

/-- Case-insensitive header lookup (requests and httpx header mappings are
case-insensitive). -/
def getHeader (headers : List (String × String)) (name : String) : Option String :=
  (headers.find? (fun p => lowerStr p.1 == lowerStr name)).map (fun p => p.2)

/-- Model of `response.headers.get("Content-Type", "").split(";")[0].strip().lower()`. -/
def respContentType (r : HResp) : String :=
  normalizeContentType ((getHeader r.headers "Content-Type").getD "")

/-- Scheme default port used by the netloc rewrite. -/
def default_port (scheme : String) : Nat := if scheme == "https" then 443 else 80

/-- Model of `parsed.port or (443 if parsed.scheme == 'https' else 80)`; note
that Python `or` also replaces an explicit port `0` by the scheme default. -/
def port_or_default (url : URL) : Nat :=
  match url.port with
  | some p => if p == 0 then default_port url.scheme else p
  | none => default_port url.scheme

/-- The netloc substituted by `parsed._replace(netloc=f"{ip_address}:{port}")`. -/
def rebuilt_netloc (url : URL) (ip : String) : String :=
  ip ++ ":" ++ natToStr (port_or_default url)

/-- Path as re-emitted by `geturl` (`urlunparse` prepends a slash to a relative
non-empty path when a netloc is present). -/
def pathPartStr (url : URL) : String :=
  if url.path = "" then ""
  else if strStartsWith url.path "/" then url.path
  else "/" ++ url.path

/-- Query component as re-emitted by `geturl`. -/
def queryPartStr (url : URL) : String := if url.query = "" then "" else "?" ++ url.query

/-- Fragment component as re-emitted by `geturl`. -/
def fragPartStr (url : URL) : String := if url.fragment = "" then "" else "#" ++ url.fragment

/-- Model of `parsed._replace(netloc=f"{ip}:{port}").geturl()`: the rewritten
request target (the original userinfo, if any, is dropped with the netloc). -/
def target_url (url : URL) (ip : String) : String :=
  url.scheme ++ "://" ++ rebuilt_netloc url ip ++ pathPartStr url ++ queryPartStr url ++
    fragPartStr url

/-- Request constructed by both downloaders: rewritten target plus the original
hostname in the Host header. -/
def requestOf (url : URL) (ip hostname : String) : SentReq :=
  { target := target_url url ip
    hostHeader := hostname
    userAgent := "Smart-Agriculture-Diagnosis/1.0" }

/-- Pre-flight size check
`if content_length and int(content_length) > max_size: raise ...`; returns the
raised error, if any (an empty header string is falsy and skips the check). -/
def contentLengthCheck (headers : List (String × String)) (max_size : Nat) : Option DlErr :=
  match getHeader headers "Content-Length" with
  | none => none
  | some s =>
    if s = "" then none
    else
      match parseCLInt s with
      | none => some (.intValueError s)
      | some n => if (max_size : Int) < n then some (.tooLargeDeclared s max_size) else none

/-- Streaming loop of the synchronous downloader
(`for chunk in response.iter_content(chunk_size=8192)` with the `if chunk:`
keep-alive filter); on failure returns the buffer accumulated at the moment the
limit was exceeded. -/
def streamSync (max_size : Nat) (acc : List Nat) : List (List Nat) → Except (List Nat) (List Nat)
  | [] => .ok acc
  | c :: rest =>
    if c = [] then streamSync max_size acc rest
    else if max_size < (acc ++ c).length then .error (acc ++ c)
    else streamSync max_size (acc ++ c) rest

/-- Streaming loop of the asynchronous downloader
(`async for chunk in response.aiter_bytes(chunk_size=8192)`; no keep-alive
filter). -/
def streamAsync (max_size : Nat) (acc : List Nat) : List (List Nat) → Except (List Nat) (List Nat)
  | [] => .ok acc
  | c :: rest =>
    if max_size < (acc ++ c).length then .error (acc ++ c)
    else streamAsync max_size (acc ++ c) rest

/-- Embedding of `download_image_securely` (requests-based, blocking).
`requests.Response.raise_for_status` raises exactly for statuses in
[400, 600), which the handler turns into the `HTTP 错误` failure. -/
def download_image_securely (parseIP : String → Option IPFlags)
    (dns : String → Except SockErr (List String)) (net : SentReq → NetOutcome)
    (u : URLInput) (max_size : Nat) : Except DlErr (List Nat) :=
  match validate_image_url parseIP dns u.parsed with
  | .error e => .error (.validationFailed (renderVal e))
  | .ok (ip_address, hostname) =>
    match net (requestOf u.parsed ip_address hostname) with
    | .timedOut => .error (.timedOut u.raw)
    | .connError m => .error (.requestFailed m u.raw)
    | .success r =>
      if 400 ≤ r.status ∧ r.status < 600 then .error (.httpError r.status u.raw)
      else
        if ¬ (ALLOWED_IMAGE_TYPES.contains (respContentType r)) then
          .error (.badContentType (respContentType r))
        else
          match contentLengthCheck r.headers max_size with
          | some e => .error e
          | none =>
            match streamSync max_size [] r.chunks with
            | .error buf => .error (.tooLargeStreamed buf.length max_size)
            | .ok buf => .ok buf

/-- Embedding of `download_image_securely_async` (httpx-based). It differs from
the blocking version in the status predicate of `raise_for_status`
(`httpx.Response.raise_for_status` raises for every non-2xx status) and in the
streaming iterator (`aiter_bytes` has no keep-alive chunk filter). -/
def download_image_securely_async (parseIP : String → Option IPFlags)
    (dns : String → Except SockErr (List String)) (net : SentReq → NetOutcome)
    (u : URLInput) (max_size : Nat) : Except DlErr (List Nat) :=
  match validate_image_url parseIP dns u.parsed with
  | .error e => .error (.validationFailed (renderVal e))
  | .ok (ip_address, hostname) =>
    match net (requestOf u.parsed ip_address hostname) with
    | .timedOut => .error (.timedOut u.raw)
    | .connError m => .error (.requestFailed m u.raw)
    | .success r =>
      if ¬ (200 ≤ r.status ∧ r.status < 300) then .error (.httpError r.status u.raw)
      else
        if ¬ (ALLOWED_IMAGE_TYPES.contains (respContentType r)) then
          .error (.badContentType (respContentType r))
        else
          match contentLengthCheck r.headers max_size with
          | some e => .error e
          | none =>
            match streamAsync max_size [] r.chunks with
            | .error buf => .error (.tooLargeStreamed buf.length max_size)
            | .ok buf => .ok buf

/-- Equality of `Except` values is decidable when both components' are. -/
instance {ε α : Type} [DecidableEq ε] [DecidableEq α] : DecidableEq (Except ε α) := fun x y =>
  match x, y with
  | .ok a, .ok b =>
    if h : a = b then .isTrue (by rw [h]) else .isFalse (fun hh => by cases hh; exact h rfl)
  | .error a, .error b =>
    if h : a = b then .isTrue (by rw [h]) else .isFalse (fun hh => by cases hh; exact h rfl)
  | .ok _, .error _ => .isFalse (fun hh => by cases hh)
  | .error _, .ok _ => .isFalse (fun hh => by cases hh)

/-!
Concrete fixtures used by witnesses and counterexamples: a DNS oracle with a
few fixed answers, and sample URLs.
-/

/-- DNS oracle for the concrete scenarios. -/
def dnsEx (h : String) : Except SockErr (List String) :=
  if h == "example.com" then .ok ["93.184.216.34"]
  else if h == "evil.example" then .ok ["93.184.216.34", "10.0.0.5"]
  else .error (.gaierror "Name or service not known")

/-- Sample accepted URL. -/
def urlExample : URLInput :=
  { raw := "https://example.com/x.jpg"
    parsed := { scheme := "https", host := "example.com", port := none, path := "/x.jpg",
                query := "", fragment := "" } }

/-!
Helper lemmas.
-/

/-- Deduplication with a `seen` accumulator preserves membership of elements not
yet seen. -/
theorem mem_dedupAux (s : String) (l : List String) :
    ∀ seen, s ∈ l → s ∉ seen → s ∈ dedupAux seen l := by
  induction l with
  | nil => intro seen h _; cases h
  | cons x xs ih =>
    intro seen hmem hnot
    unfold dedupAux
    by_cases hx : x ∈ seen
    · rcases List.mem_cons.mp hmem with rfl | hmem2
      · exact absurd hx hnot
      · simpa [hx] using ih seen hmem2 hnot
    · rcases List.mem_cons.mp hmem with rfl | hmem2
      · simp [hx]
      · by_cases hsx : s = x
        · simp [hx, hsx]
        · have : s ∈ dedupAux (x :: seen) xs :=
            ih (x :: seen) hmem2 (by simp [hsx, hnot])
          simp [hx, this]

/-- Deduplication preserves membership. -/
theorem mem_dedupFirst (s : String) (l : List String) (h : s ∈ l) : s ∈ dedupFirst l :=
  mem_dedupAux s l [] h (by simp)

/-- Inversion for a successful address-check loop: every address that parses is
public, and the collected list is exactly the parseable addresses in order. -/
theorem checkIPs_ok_inv (parseIP : String → Option IPFlags) (hn : String) :
    ∀ (l out : List String), checkIPs parseIP hn l = .ok out →
      out = l.filter (fun s => (parseIP s).isSome) ∧
      ∀ s ∈ l, ∀ f, parseIP s = some f → unsafeFlags f = false := by
  intro l
  induction l with
  | nil =>
    intro out h
    unfold checkIPs at h
    injection h with h
    exact ⟨h.symm, by intro s hs; cases hs⟩
  | cons x xs ih =>
    intro out h
    unfold checkIPs at h
    split at h
    next hpx =>
      obtain ⟨h1, h2⟩ := ih out h
      refine ⟨by simp [List.filter_cons, hpx, h1], ?_⟩
      intro s hs f hf
      rcases List.mem_cons.mp hs with rfl | hm
      · rw [hpx] at hf; cases hf
      · exact h2 s hm f hf
    next g hpx =>
      split at h
      next => cases h
      next h1 =>
      split at h
      next => cases h
      next h2 =>
      split at h
      next => cases h
      next h3 =>
      split at h
      next => cases h
      next h4 =>
      split at h
      next => cases h
      next h5 =>
      rw [Bool.not_eq_true] at h1 h2 h3 h4 h5
      cases hrec : checkIPs parseIP hn xs with
      | error e => rw [hrec] at h; simp [Except.map] at h
      | ok out2 =>
        rw [hrec] at h
        simp only [Except.map] at h
        injection h with h
        obtain ⟨g1, g2⟩ := ih out2 hrec
        refine ⟨by simp [List.filter_cons, hpx, ← h, g1], ?_⟩
        intro s hs f hf
        rcases List.mem_cons.mp hs with rfl | hm
        · rw [hpx] at hf
          injection hf with hf
          rw [← hf]
          simp [unsafeFlags, h1, h2, h3, h4, h5]
        · exact g2 s hm f hf

/-- Inversion for successful validation: the scheme was allowed, the returned
hostname is the lower-cased URL host, DNS resolution succeeded, the address
check loop succeeded, and the returned address heads the collected list. -/
theorem validate_ok_inv (parseIP : String → Option IPFlags)
    (dns : String → Except SockErr (List String)) (url : URL) (ip hn : String)
    (h : validate_image_url parseIP dns url = .ok (ip, hn)) :
    ALLOWED_SCHEMES.contains url.scheme = true ∧
    hn = lowerStr url.host ∧
    ∃ rawAddrs public_ips,
      dns (lowerStr url.host) = .ok rawAddrs ∧
      checkIPs parseIP (lowerStr url.host) (dedupFirst rawAddrs) = .ok public_ips ∧
      ∃ rest, public_ips = ip :: rest := by
  unfold validate_image_url validate_image_url_traced at h
  by_cases hc1 : ALLOWED_SCHEMES.contains url.scheme = true
  case neg =>
    rw [if_pos (by simpa using hc1)] at h
    cases h
  rw [if_neg (by simpa using hc1)] at h
  by_cases hc2 : lowerStr url.host = ""
  case pos => rw [if_pos hc2] at h; cases h
  rw [if_neg hc2] at h
  by_cases hc3 : LOCALHOST_DENYLIST.contains (lowerStr (lowerStr url.host)) = true
  case pos => rw [if_pos (by simpa using hc3)] at h; cases h
  rw [if_neg (by simpa using hc3)] at h
  by_cases hc4 : (strStartsWith (lowerStr (lowerStr url.host)) "127." ||
      strStartsWith (lowerStr (lowerStr url.host)) "192.168." ||
      strStartsWith (lowerStr (lowerStr url.host)) "10.") = true
  case pos => rw [if_pos (by simpa using hc4)] at h; cases h
  rw [if_neg (by simpa using hc4)] at h
  split at h
  · cases h
  · cases h
  · rename_i rawAddrs hdns
    split at h
    · cases h
    · split at h
      · cases h
      · rename_i public_ips hchk
        cases public_ips with
        | nil =>
          have h2 : (Except.error (ValErr.allBlocked (lowerStr url.host)) :
              Except ValErr (String × String)) = Except.ok (ip, hn) := h
          cases h2
        | cons selected tail =>
          have h2 : (Except.ok (selected, lowerStr url.host) :
              Except ValErr (String × String)) = Except.ok (ip, hn) := h
          injection h2 with h2
          injection h2 with ha hb
          exact ⟨hc1, hb.symm, rawAddrs, selected :: tail, hdns, hchk, tail, by rw [ha]⟩

/-- C1: for every URL whose hostname resolves (via the DNS oracle) to a list of
addresses among which some address is classified as loopback, link-local,
private, reserved or multicast, `validate_image_url` fails with an
`SSRFValidationError`, regardless of the position of the non-public address in
the resolver answer and of whether other resolved addresses are public. -/
theorem validate_rejects_unsafe_resolution
    (parseIP : String → Option IPFlags) (dns : String → Except SockErr (List String))
    (url : URL) (rawAddrs : List String) (s : String) (f : IPFlags)
    (hdns : dns (lowerStr url.host) = .ok rawAddrs)
    (hmem : s ∈ rawAddrs) (hparse : parseIP s = some f) (hnonpub : unsafeFlags f = true) :
    ∃ e : ValErr, validate_image_url parseIP dns url = .error e := by
  cases hv : validate_image_url parseIP dns url with
  | error e => exact ⟨e, rfl⟩
  | ok pr =>
    obtain ⟨ip, hn⟩ := pr
    obtain ⟨-, -, rawAddrs2, public_ips, hdns2, hchk, -⟩ :=
      validate_ok_inv parseIP dns url ip hn hv
    rw [hdns] at hdns2
    injection hdns2 with hre
    subst hre
    obtain ⟨-, hsafe⟩ :=
      checkIPs_ok_inv parseIP (lowerStr url.host) (dedupFirst rawAddrs) public_ips hchk
    have := hsafe s (mem_dedupFirst s rawAddrs hmem) f hparse
    rw [hnonpub] at this
    cases this

/-- Witness for C1: `evil.example` resolves to a public address followed by the
RFC 1918 address `10.0.0.5`, and validation rejects the URL. -/
theorem validate_rejects_unsafe_resolution_witness :
    dnsEx (lowerStr "evil.example") = .ok ["93.184.216.34", "10.0.0.5"] ∧
    "10.0.0.5" ∈ (["93.184.216.34", "10.0.0.5"] : List String) ∧
    parseIPv4 "10.0.0.5" = some (ipv4Flags 10 0 0 5) ∧
    unsafeFlags (ipv4Flags 10 0 0 5) = true ∧
    ∃ e : ValErr,
      validate_image_url parseIPv4 dnsEx
        { scheme := "http", host := "evil.example", port := none, path := "/x.jpg",
          query := "", fragment := "" } = .error e :=
  ⟨by decide, by decide, by decide, by decide,
    validate_rejects_unsafe_resolution parseIPv4 dnsEx
      { scheme := "http", host := "evil.example", port := none, path := "/x.jpg",
        query := "", fragment := "" }
      ["93.184.216.34", "10.0.0.5"] "10.0.0.5" (ipv4Flags 10 0 0 5)
      (by decide) (by decide) (by decide) (by decide)⟩

/-- C10: whenever validation reaches the DNS-resolution step (the scheme is
allowed and the host is present and passes the string-level denylist and prefix
checks), the call sequence on the process-wide socket default timeout is
exactly set-to-5-seconds followed by set-to-None — on success and on failure
alike — so the final default-timeout state is `none` (no timeout) regardless of
the value in effect before the call, rather than a restoration of it. -/
theorem validate_socket_timeout_frame (parseIP : String → Option IPFlags)
    (dns : String → Except SockErr (List String)) (url : URL)
    (h1 : ALLOWED_SCHEMES.contains url.scheme = true)
    (h2 : lowerStr url.host ≠ "")
    (h3 : LOCALHOST_DENYLIST.contains (lowerStr (lowerStr url.host)) = false)
    (h4 : (strStartsWith (lowerStr (lowerStr url.host)) "127." ||
           strStartsWith (lowerStr (lowerStr url.host)) "192.168." ||
           strStartsWith (lowerStr (lowerStr url.host)) "10.") = false) :
    (validate_image_url_traced parseIP dns url).2 = [some 5, none] ∧
    ∀ t0 : Option Nat,
      applyTimeoutTrace t0 (validate_image_url_traced parseIP dns url).2 = none := by
  have htr : (validate_image_url_traced parseIP dns url).2 = [some 5, none] := by
    unfold validate_image_url_traced
    rw [if_neg (by simpa using h1), if_neg h2, if_neg (by simpa using h3),
      if_neg (by simpa using h4)]
    repeat first | rfl | split
  exact ⟨htr, fun t0 => by rw [htr]; rfl⟩

/-- Witness for C10: a URL that reaches DNS resolution; the timeout trace is
set-to-5 then set-to-None, and the final state is `none` even when a caller had
configured a 7-second global default beforehand. -/
theorem validate_socket_timeout_frame_witness :
    ALLOWED_SCHEMES.contains (URLInput.parsed urlExample).scheme = true ∧
    lowerStr (URLInput.parsed urlExample).host ≠ "" ∧
    (validate_image_url_traced parseIPv4 dnsEx urlExample.parsed).2 = [some 5, none] ∧
    applyTimeoutTrace (some 7) (validate_image_url_traced parseIPv4 dnsEx urlExample.parsed).2 =
      none :=
  ⟨by decide, by decide,
    (validate_socket_timeout_frame parseIPv4 dnsEx urlExample.parsed
      (by decide) (by decide) (by decide) (by decide)).1,
    (validate_socket_timeout_frame parseIPv4 dnsEx urlExample.parsed
      (by decide) (by decide) (by decide) (by decide)).2 (some 7)⟩

/-- If the cumulative body size exceeds the limit, the streaming loop fails on
the first chunk that pushes the running total past the limit; the buffer at
that moment extends the prior (within-limit) buffer by a single chunk. -/
theorem streamSync_error_over (max_size : Nat) :
    ∀ (chunks : List (List Nat)) (acc : List Nat),
      (∀ c ∈ chunks, c.length ≤ CHUNK_SIZE) →
      acc.length ≤ max_size →
      max_size < acc.length + chunks.flatten.length →
      ∃ n, streamSync max_size acc chunks = .error (acc ++ (chunks.take (n + 1)).flatten) ∧
        (acc ++ (chunks.take n).flatten).length ≤ max_size ∧
        max_size < (acc ++ (chunks.take (n + 1)).flatten).length ∧
        (acc ++ (chunks.take (n + 1)).flatten).length ≤ max_size + CHUNK_SIZE := by
  intro chunks
  induction chunks with
  | nil =>
    intro acc _ hacc hover
    simp only [List.flatten_nil, List.length_nil, Nat.add_zero] at hover
    exact absurd hacc (by omega)
  | cons c rest ih =>
    intro acc hb hacc hover
    unfold streamSync
    by_cases hc : c = []
    · subst hc
      rw [if_pos rfl]
      obtain ⟨n, g1, g2, g3, g4⟩ :=
        ih acc (fun d hd => hb d (List.mem_cons_of_mem _ hd)) hacc (by simpa using hover)
      refine ⟨n + 1, ?_, ?_, ?_, ?_⟩
      · rw [g1]; simp [List.take_succ_cons]
      · simpa [List.take_succ_cons] using g2
      · simpa [List.take_succ_cons] using g3
      · simpa [List.take_succ_cons] using g4
    · rw [if_neg hc]
      by_cases hov : max_size < (acc ++ c).length
      · refine ⟨0, ?_, ?_, ?_, ?_⟩
        · rw [if_pos hov]; simp
        · simpa using hacc
        · simpa using hov
        · have hcb := hb c (List.mem_cons_self c rest)
          simp only [List.take_succ_cons, List.take_zero, List.flatten_cons, List.flatten_nil,
            List.append_nil, List.length_append] at hov ⊢
          omega
      · rw [if_neg hov]
        rw [Nat.not_lt] at hov
        obtain ⟨n, g1, g2, g3, g4⟩ :=
          ih (acc ++ c) (fun d hd => hb d (List.mem_cons_of_mem _ hd)) hov
            (by simp only [List.flatten_cons, List.length_append] at hover ⊢; omega)
        refine ⟨n + 1, ?_, ?_, ?_, ?_⟩
        · rw [g1]; simp [List.take_succ_cons, List.flatten_cons, List.append_assoc]
        · simpa [List.take_succ_cons, List.flatten_cons, List.append_assoc] using g2
        · simpa [List.take_succ_cons, List.flatten_cons, List.append_assoc] using g3
        · simpa [List.take_succ_cons, List.flatten_cons, List.append_assoc] using g4

/-- The two streaming loops agree as long as the incoming buffer is within the
size limit (which is an invariant of both loops): the only difference, the
`if chunk:` keep-alive filter, is unobservable because appending an empty chunk
neither grows the buffer nor trips the size check. -/
theorem streamSync_eq_streamAsync (max_size : Nat) :
    ∀ (chunks : List (List Nat)) (acc : List Nat), acc.length ≤ max_size →
      streamSync max_size acc chunks = streamAsync max_size acc chunks := by
  intro chunks
  induction chunks with
  | nil => intro acc _; rfl
  | cons c rest ih =>
    intro acc hacc
    unfold streamSync streamAsync
    by_cases hc : c = []
    · subst hc
      rw [if_pos rfl, if_neg (by simpa using Nat.not_lt.mpr hacc)]
      simpa using ih acc hacc
    · rw [if_neg hc]
      by_cases hov : max_size < (acc ++ c).length
      · rw [if_pos hov, if_pos hov]
      · rw [if_neg hov, if_neg hov]
        exact ih (acc ++ c) (Nat.not_lt.mp hov)

/-- Transport oracle that always delivers the same final response. -/
def netOf (r : HResp) : SentReq → NetOutcome := fun _ => .success r

/-- Sample image response whose body exceeds a 1-byte limit. -/
def respStream : HResp :=
  { status := 200, headers := [("Content-Type", "image/png")], chunks := [[7], [8]] }

/-- A rejected validation is wrapped by the blocking downloader into the
`URL 验证失败` failure, for every transport oracle. -/
theorem download_sync_of_validation_error (parseIP : String → Option IPFlags)
    (dns : String → Except SockErr (List String)) (net : SentReq → NetOutcome)
    (u : URLInput) (max_size : Nat) (e : ValErr)
    (h : validate_image_url parseIP dns u.parsed = .error e) :
    download_image_securely parseIP dns net u max_size =
      .error (.validationFailed (renderVal e)) := by
  unfold download_image_securely
  split
  · rename_i e2 hv
    rw [h] at hv
    injection hv with hv
    rw [hv]
  · rename_i ip hn hv
    rw [h] at hv
    cases hv

/-- A rejected validation is wrapped by the non-blocking downloader into the
`URL 验证失败` failure, for every transport oracle. -/
theorem download_async_of_validation_error (parseIP : String → Option IPFlags)
    (dns : String → Except SockErr (List String)) (net : SentReq → NetOutcome)
    (u : URLInput) (max_size : Nat) (e : ValErr)
    (h : validate_image_url parseIP dns u.parsed = .error e) :
    download_image_securely_async parseIP dns net u max_size =
      .error (.validationFailed (renderVal e)) := by
  unfold download_image_securely_async
  split
  · rename_i e2 hv
    rw [h] at hv
    injection hv with hv
    rw [hv]
  · rename_i ip hn hv
    rw [h] at hv
    cases hv

/-- Reduction of the blocking downloader to its response-processing phase, once
validation succeeded and the transport returned a response. -/
theorem download_sync_resp (parseIP : String → Option IPFlags)
    (dns : String → Except SockErr (List String)) (net : SentReq → NetOutcome)
    (u : URLInput) (max_size : Nat) (ip hn : String) (r : HResp)
    (hok : validate_image_url parseIP dns u.parsed = .ok (ip, hn))
    (hnet : net (requestOf u.parsed ip hn) = .success r) :
    download_image_securely parseIP dns net u max_size =
      (if 400 ≤ r.status ∧ r.status < 600 then .error (.httpError r.status u.raw)
       else if ¬ (ALLOWED_IMAGE_TYPES.contains (respContentType r)) then
         .error (.badContentType (respContentType r))
       else
         match contentLengthCheck r.headers max_size with
         | some e => .error e
         | none =>
           match streamSync max_size [] r.chunks with
           | .error buf => .error (.tooLargeStreamed buf.length max_size)
           | .ok buf => .ok buf) := by
  unfold download_image_securely
  split
  · rename_i e hv
    rw [hok] at hv
    cases hv
  · rename_i ip2 hn2 hv
    rw [hok] at hv
    injection hv with hv
    injection hv with hv1 hv2
    subst hv1
    subst hv2
    split
    · rename_i heq; rw [hnet] at heq; cases heq
    · rename_i m heq; rw [hnet] at heq; cases heq
    · rename_i r2 heq
      rw [hnet] at heq
      injection heq with heq
      subst heq
      rfl

/-- Reduction of the non-blocking downloader to its response-processing phase,
once validation succeeded and the transport returned a response. -/
theorem download_async_resp (parseIP : String → Option IPFlags)
    (dns : String → Except SockErr (List String)) (net : SentReq → NetOutcome)
    (u : URLInput) (max_size : Nat) (ip hn : String) (r : HResp)
    (hok : validate_image_url parseIP dns u.parsed = .ok (ip, hn))
    (hnet : net (requestOf u.parsed ip hn) = .success r) :
    download_image_securely_async parseIP dns net u max_size =
      (if ¬ (200 ≤ r.status ∧ r.status < 300) then .error (.httpError r.status u.raw)
       else if ¬ (ALLOWED_IMAGE_TYPES.contains (respContentType r)) then
         .error (.badContentType (respContentType r))
       else
         match contentLengthCheck r.headers max_size with
         | some e => .error e
         | none =>
           match streamAsync max_size [] r.chunks with
           | .error buf => .error (.tooLargeStreamed buf.length max_size)
           | .ok buf => .ok buf) := by
  unfold download_image_securely_async
  split
  · rename_i e hv
    rw [hok] at hv
    cases hv
  · rename_i ip2 hn2 hv
    rw [hok] at hv
    injection hv with hv
    injection hv with hv1 hv2
    subst hv1
    subst hv2
    split
    · rename_i heq; rw [hnet] at heq; cases heq
    · rename_i m heq; rw [hnet] at heq; cases heq
    · rename_i r2 heq
      rw [hnet] at heq
      injection heq with heq
      subst heq
      rfl

/-- C3: for an accepted URL whose 2xx response carries an allowed content type
and no Content-Length header, if the streamed body exceeds `max_size`, both
downloaders fail with the streaming `文件过大` failure at the first chunk that
pushes the running total past the limit: the buffer accumulated at the moment
of failure exceeds `max_size` by at most one chunk (at most
`max_size + CHUNK_SIZE` bytes in total, `CHUNK_SIZE` being 8192), and the
buffer one step earlier was still within `max_size`. -/
theorem streaming_size_cap (parseIP : String → Option IPFlags)
    (dns : String → Except SockErr (List String)) (net : SentReq → NetOutcome)
    (u : URLInput) (max_size : Nat) (ip hn : String) (r : HResp)
    (hok : validate_image_url parseIP dns u.parsed = .ok (ip, hn))
    (hnet : net (requestOf u.parsed ip hn) = .success r)
    (hst : 200 ≤ r.status ∧ r.status < 300)
    (hct : ALLOWED_IMAGE_TYPES.contains (respContentType r) = true)
    (hnocl : getHeader r.headers "Content-Length" = none)
    (hbound : ∀ c ∈ r.chunks, c.length ≤ CHUNK_SIZE)
    (hover : max_size < r.chunks.flatten.length) :
    ∃ n,
      streamSync max_size [] r.chunks = .error ((r.chunks.take (n + 1)).flatten) ∧
      ((r.chunks.take n).flatten).length ≤ max_size ∧
      max_size < ((r.chunks.take (n + 1)).flatten).length ∧
      ((r.chunks.take (n + 1)).flatten).length ≤ max_size + CHUNK_SIZE ∧
      download_image_securely parseIP dns net u max_size =
        .error (.tooLargeStreamed ((r.chunks.take (n + 1)).flatten).length max_size) ∧
      download_image_securely_async parseIP dns net u max_size =
        .error (.tooLargeStreamed ((r.chunks.take (n + 1)).flatten).length max_size) := by
  obtain ⟨n, g1, g2, g3, g4⟩ :=
    streamSync_error_over max_size r.chunks [] hbound (by simp) (by simpa using hover)
  rw [List.nil_append] at g1
  rw [List.nil_append] at g2
  rw [List.nil_append] at g3
  rw [List.nil_append] at g4
  have hclc : contentLengthCheck r.headers max_size = none := by
    unfold contentLengthCheck
    rw [hnocl]
  have hs6 : ¬ (400 ≤ r.status ∧ r.status < 600) := by omega
  have hs2 : ¬ ¬ (200 ≤ r.status ∧ r.status < 300) := not_not_intro hst
  have hasync : streamAsync max_size [] r.chunks = .error ((r.chunks.take (n + 1)).flatten) := by
    rw [← streamSync_eq_streamAsync max_size r.chunks [] (by simp)]
    exact g1
  refine ⟨n, g1, g2, g3, g4, ?_, ?_⟩
  · rw [download_sync_resp parseIP dns net u max_size ip hn r hok hnet]
    rw [if_neg hs6, if_neg (by simpa using hct), hclc, g1]
  · rw [download_async_resp parseIP dns net u max_size ip hn r hok hnet]
    rw [if_neg hs2, if_neg (by simpa using hct), hclc, hasync]

/-- Witness for C3: a 2-byte body under a 1-byte limit fails mid-stream with a
buffer of 2 bytes, within one chunk of the limit. -/
theorem streaming_size_cap_witness :
    validate_image_url parseIPv4 dnsEx urlExample.parsed = .ok ("93.184.216.34", "example.com") ∧
    (200 ≤ respStream.status ∧ respStream.status < 300) ∧
    ALLOWED_IMAGE_TYPES.contains (respContentType respStream) = true ∧
    getHeader respStream.headers "Content-Length" = none ∧
    (∀ c ∈ respStream.chunks, c.length ≤ CHUNK_SIZE) ∧
    1 < respStream.chunks.flatten.length ∧
    ∃ n,
      streamSync 1 [] respStream.chunks = .error ((respStream.chunks.take (n + 1)).flatten) ∧
      ((respStream.chunks.take n).flatten).length ≤ 1 ∧
      1 < ((respStream.chunks.take (n + 1)).flatten).length ∧
      ((respStream.chunks.take (n + 1)).flatten).length ≤ 1 + CHUNK_SIZE ∧
      download_image_securely parseIPv4 dnsEx (netOf respStream) urlExample 1 =
        .error (.tooLargeStreamed ((respStream.chunks.take (n + 1)).flatten).length 1) ∧
      download_image_securely_async parseIPv4 dnsEx (netOf respStream) urlExample 1 =
        .error (.tooLargeStreamed ((respStream.chunks.take (n + 1)).flatten).length 1) :=
  ⟨by decide, by decide, by decide, by decide, by decide, by decide,
    streaming_size_cap parseIPv4 dnsEx (netOf respStream) urlExample 1
      "93.184.216.34" "example.com" respStream
      (by decide) rfl (by decide) (by decide) (by decide) (by decide) (by decide)⟩

/-- Every list is a prefix of itself extended by anything. -/
theorem isPrefixOf_append_self (l t : List Char) : l.isPrefixOf (l ++ t) = true := by
  induction l with
  | nil => cases t <;> rfl
  | cons a l ih => simp [List.isPrefixOf, ih]

/-- A contiguous run placed between two other runs is found by `seqContains`. -/
theorem seqContains_append (pre mid post : List Char) :
    seqContains (pre ++ (mid ++ post)) mid = true := by
  induction pre with
  | nil =>
    cases mid with
    | nil => cases post <;> simp [seqContains]
    | cons m ms => simp [seqContains, isPrefixOf_append_self]
  | cons p pre ih => simp [seqContains, ih]

/-- Substring containment over an explicit decomposition. -/
theorem strContains_middle (pre mid post : String) :
    strContains (pre ++ mid ++ post) mid = true := by
  unfold strContains
  have h := seqContains_append pre.data mid.data post.data
  simpa [String.data_append, List.append_assoc] using h

/-- Substring containment of a suffix. -/
theorem strContains_append_self (pre mid : String) :
    strContains (pre ++ mid) mid = true := by
  unfold strContains
  have h := seqContains_append pre.data mid.data []
  simpa [String.data_append] using h

/-- The pre-flight Content-Length check only ever produces the declared-size
failure or the `int()` crash, never a content-type failure. -/
theorem contentLengthCheck_cases (headers : List (String × String)) (m : Nat) (e : DlErr)
    (h : contentLengthCheck headers m = some e) :
    (∃ s, e = .tooLargeDeclared s m) ∨ (∃ s, e = .intValueError s) := by
  unfold contentLengthCheck at h
  split at h
  · cases h
  · rename_i s hs
    split at h
    · cases h
    · split at h
      · injection h with h
        exact Or.inr ⟨s, h.symm⟩
      · rename_i n hp
        split at h
        · injection h with h
          exact Or.inl ⟨s, h.symm⟩
        · cases h

/-- C4: a response that declares a Content-Length strictly greater than
`max_size` makes both downloaders fail with an `ImageDownloadError` before any
body chunk is read: the outcome is independent of the body chunks (two
responses equal except for their bodies yield identical results), and it is a
failure. -/
theorem content_length_preflight (parseIP : String → Option IPFlags)
    (dns : String → Except SockErr (List String)) (u : URLInput) (max_size : Nat)
    (r1 r2 : HResp) (s : String) (n : Int)
    (hsame_st : r1.status = r2.status) (hsame_hd : r1.headers = r2.headers)
    (hcl : getHeader r1.headers "Content-Length" = some s) (hne : s ≠ "")
    (hn : parseCLInt s = some n) (hgt : (max_size : Int) < n) :
    download_image_securely parseIP dns (netOf r1) u max_size =
      download_image_securely parseIP dns (netOf r2) u max_size ∧
    download_image_securely_async parseIP dns (netOf r1) u max_size =
      download_image_securely_async parseIP dns (netOf r2) u max_size ∧
    (∃ e, download_image_securely parseIP dns (netOf r1) u max_size = .error e ∧
      isDownloadFailure e = true) ∧
    (∃ e, download_image_securely_async parseIP dns (netOf r1) u max_size = .error e ∧
      isDownloadFailure e = true) := by
  have hclc : contentLengthCheck r1.headers max_size = some (.tooLargeDeclared s max_size) := by
    unfold contentLengthCheck
    split
    · rename_i hq; rw [hcl] at hq; cases hq
    · rename_i s2 hq
      rw [hcl] at hq
      injection hq with hq
      subst hq
      rw [if_neg hne]
      split
      · rename_i hp; rw [hn] at hp; cases hp
      · rename_i n2 hp
        rw [hn] at hp
        injection hp with hp
        subst hp
        rw [if_pos hgt]
  have hclc2 : contentLengthCheck r2.headers max_size = some (.tooLargeDeclared s max_size) := by
    rw [← hsame_hd]; exact hclc
  cases hv : validate_image_url parseIP dns u.parsed with
  | error e =>
    rw [download_sync_of_validation_error parseIP dns (netOf r1) u max_size e hv,
        download_sync_of_validation_error parseIP dns (netOf r2) u max_size e hv,
        download_async_of_validation_error parseIP dns (netOf r1) u max_size e hv,
        download_async_of_validation_error parseIP dns (netOf r2) u max_size e hv]
    exact ⟨rfl, rfl, ⟨_, rfl, rfl⟩, ⟨_, rfl, rfl⟩⟩
  | ok pr =>
    obtain ⟨ip, hname⟩ := pr
    have hct12 : respContentType r1 = respContentType r2 := by
      unfold respContentType
      rw [hsame_hd]
    rw [download_sync_resp parseIP dns (netOf r1) u max_size ip hname r1 hv rfl,
        download_sync_resp parseIP dns (netOf r2) u max_size ip hname r2 hv rfl,
        download_async_resp parseIP dns (netOf r1) u max_size ip hname r1 hv rfl,
        download_async_resp parseIP dns (netOf r2) u max_size ip hname r2 hv rfl]
    have hsync : ∃ e, (if 400 ≤ r1.status ∧ r1.status < 600 then
          (.error (.httpError r1.status u.raw) : Except DlErr (List Nat))
        else if ¬ (ALLOWED_IMAGE_TYPES.contains (respContentType r1)) then
          .error (.badContentType (respContentType r1))
        else
          match contentLengthCheck r1.headers max_size with
          | some e => .error e
          | none =>
            match streamSync max_size [] r1.chunks with
            | .error buf => .error (.tooLargeStreamed buf.length max_size)
            | .ok buf => .ok buf) = .error e ∧
        (if 400 ≤ r2.status ∧ r2.status < 600 then
          (.error (.httpError r2.status u.raw) : Except DlErr (List Nat))
        else if ¬ (ALLOWED_IMAGE_TYPES.contains (respContentType r2)) then
          .error (.badContentType (respContentType r2))
        else
          match contentLengthCheck r2.headers max_size with
          | some e => .error e
          | none =>
            match streamSync max_size [] r2.chunks with
            | .error buf => .error (.tooLargeStreamed buf.length max_size)
            | .ok buf => .ok buf) = .error e ∧
        isDownloadFailure e = true := by
      by_cases h46 : 400 ≤ r1.status ∧ r1.status < 600
      · refine ⟨.httpError r1.status u.raw, by rw [if_pos h46], ?_, rfl⟩
        rw [← hsame_st, if_pos h46]
      · by_cases hctq : ALLOWED_IMAGE_TYPES.contains (respContentType r1) = true
        · refine ⟨.tooLargeDeclared s max_size, ?_, ?_⟩
          · rw [if_neg h46, if_neg (not_not_intro hctq)]
            split
            · rename_i e2 hq
              rw [hclc] at hq
              injection hq with hq
              rw [hq]
            · rename_i hq
              rw [hclc] at hq
              cases hq
          · constructor
            · rw [← hsame_st, if_neg h46, ← hct12, if_neg (not_not_intro hctq)]
              split
              · rename_i e2 hq
                rw [hclc2] at hq
                injection hq with hq
                rw [hq]
              · rename_i hq
                rw [hclc2] at hq
                cases hq
            · rfl
        · refine ⟨.badContentType (respContentType r1), ?_, ?_, rfl⟩
          · rw [if_neg h46, if_pos (by simpa using hctq)]
          · rw [← hsame_st, if_neg h46, ← hct12, if_pos (by simpa using hctq)]
    have hasync : ∃ e, (if ¬ (200 ≤ r1.status ∧ r1.status < 300) then
          (.error (.httpError r1.status u.raw) : Except DlErr (List Nat))
        else if ¬ (ALLOWED_IMAGE_TYPES.contains (respContentType r1)) then
          .error (.badContentType (respContentType r1))
        else
          match contentLengthCheck r1.headers max_size with
          | some e => .error e
          | none =>
            match streamAsync max_size [] r1.chunks with
            | .error buf => .error (.tooLargeStreamed buf.length max_size)
            | .ok buf => .ok buf) = .error e ∧
        (if ¬ (200 ≤ r2.status ∧ r2.status < 300) then
          (.error (.httpError r2.status u.raw) : Except DlErr (List Nat))
        else if ¬ (ALLOWED_IMAGE_TYPES.contains (respContentType r2)) then
          .error (.badContentType (respContentType r2))
        else
          match contentLengthCheck r2.headers max_size with
          | some e => .error e
          | none =>
            match streamAsync max_size [] r2.chunks with
            | .error buf => .error (.tooLargeStreamed buf.length max_size)
            | .ok buf => .ok buf) = .error e ∧
        isDownloadFailure e = true := by
      by_cases h2xx : 200 ≤ r1.status ∧ r1.status < 300
      · by_cases hctq : ALLOWED_IMAGE_TYPES.contains (respContentType r1) = true
        · refine ⟨.tooLargeDeclared s max_size, ?_, ?_, rfl⟩
          · rw [if_neg (not_not_intro h2xx), if_neg (not_not_intro hctq)]
            split
            · rename_i e2 hq
              rw [hclc] at hq
              injection hq with hq
              rw [hq]
            · rename_i hq
              rw [hclc] at hq
              cases hq
          · rw [← hsame_st, if_neg (not_not_intro h2xx), ← hct12,
              if_neg (not_not_intro hctq)]
            split
            · rename_i e2 hq
              rw [hclc2] at hq
              injection hq with hq
              rw [hq]
            · rename_i hq
              rw [hclc2] at hq
              cases hq
        · refine ⟨.badContentType (respContentType r1), ?_, ?_, rfl⟩
          · rw [if_neg (not_not_intro h2xx), if_pos (by simpa using hctq)]
          · rw [← hsame_st, if_neg (not_not_intro h2xx), ← hct12,
              if_pos (by simpa using hctq)]
      · refine ⟨.httpError r1.status u.raw, by rw [if_pos h2xx], ?_, rfl⟩
        rw [← hsame_st, if_pos h2xx]
    obtain ⟨e1, hs1, hs2, hf1⟩ := hsync
    obtain ⟨e2, ha1, ha2, hf2⟩ := hasync
    exact ⟨hs1.trans hs2.symm, ha1.trans ha2.symm, ⟨e1, hs1, hf1⟩, ⟨e2, ha1, hf2⟩⟩

/-- Witness for C4: a response declaring `Content-Length: 20971520` against a
10 MiB policy fails in both downloaders, identically for two different bodies. -/
theorem content_length_preflight_witness :
    getHeader [("Content-Type", "image/png"), ("Content-Length", "20971520")]
      "Content-Length" = some "20971520" ∧
    parseCLInt "20971520" = some 20971520 ∧
    ((MAX_IMAGE_SIZE_BYTES : Int) < 20971520) ∧
    (download_image_securely parseIPv4 dnsEx
        (netOf ⟨200, [("Content-Type", "image/png"), ("Content-Length", "20971520")], [[1]]⟩)
        urlExample MAX_IMAGE_SIZE_BYTES =
      download_image_securely parseIPv4 dnsEx
        (netOf ⟨200, [("Content-Type", "image/png"), ("Content-Length", "20971520")], [[2], [3]]⟩)
        urlExample MAX_IMAGE_SIZE_BYTES) ∧
    (∃ e, download_image_securely parseIPv4 dnsEx
        (netOf ⟨200, [("Content-Type", "image/png"), ("Content-Length", "20971520")], [[1]]⟩)
        urlExample MAX_IMAGE_SIZE_BYTES = .error e ∧ isDownloadFailure e = true) :=
  have h := content_length_preflight parseIPv4 dnsEx urlExample MAX_IMAGE_SIZE_BYTES
    ⟨200, [("Content-Type", "image/png"), ("Content-Length", "20971520")], [[1]]⟩
    ⟨200, [("Content-Type", "image/png"), ("Content-Length", "20971520")], [[2], [3]]⟩
    "20971520" 20971520 rfl rfl (by decide) (by decide) (by decide) (by decide)
  ⟨by decide, by decide, by decide, h.1, h.2.2.1⟩

/-- C5: for an accepted URL answered with a 2xx response, the download fails
with the `不支持的文件类型` (content-type) failure exactly when the Content-Type
header — parameters stripped at the first semicolon, trimmed, lower-cased — is
outside the allowed image set, in both downloaders; in particular `text/html`
is rejected while `image/jpeg; charset=binary` normalises to `image/jpeg` and
passes the content-type check. -/
theorem content_type_allowlist (parseIP : String → Option IPFlags)
    (dns : String → Except SockErr (List String)) (net : SentReq → NetOutcome)
    (u : URLInput) (max_size : Nat) (ip hn : String) (r : HResp)
    (hok : validate_image_url parseIP dns u.parsed = .ok (ip, hn))
    (hnet : net (requestOf u.parsed ip hn) = .success r)
    (hst : 200 ≤ r.status ∧ r.status < 300) :
    (download_image_securely parseIP dns net u max_size =
        .error (.badContentType (respContentType r)) ↔
      ALLOWED_IMAGE_TYPES.contains (respContentType r) = false) ∧
    (download_image_securely_async parseIP dns net u max_size =
        .error (.badContentType (respContentType r)) ↔
      ALLOWED_IMAGE_TYPES.contains (respContentType r) = false) ∧
    ALLOWED_IMAGE_TYPES.contains (normalizeContentType "text/html") = false ∧
    normalizeContentType "image/jpeg; charset=binary" = "image/jpeg" ∧
    ALLOWED_IMAGE_TYPES.contains (normalizeContentType "image/jpeg; charset=binary") = true := by
  have hs6 : ¬ (400 ≤ r.status ∧ r.status < 600) := by omega
  have hs2 : ¬ ¬ (200 ≤ r.status ∧ r.status < 300) := not_not_intro hst
  rw [download_sync_resp parseIP dns net u max_size ip hn r hok hnet,
      download_async_resp parseIP dns net u max_size ip hn r hok hnet,
      if_neg hs6, if_neg hs2]
  refine ⟨?_, ?_, by decide, by decide, by decide⟩
  · by_cases hctq : ALLOWED_IMAGE_TYPES.contains (respContentType r) = true
    · rw [if_neg (not_not_intro hctq)]
      constructor
      · intro hb
        exfalso
        split at hb
        · rename_i e2 hq
          injection hb with hb2
          rcases contentLengthCheck_cases r.headers max_size e2 hq with ⟨s, hs⟩ | ⟨s, hs⟩ <;>
            (rw [hs] at hb2; cases hb2)
        · split at hb
          · injection hb with hb2; cases hb2
          · cases hb
      · intro hfalse
        rw [hctq] at hfalse
        cases hfalse
    · have hctf : ALLOWED_IMAGE_TYPES.contains (respContentType r) = false := by
        cases hq : ALLOWED_IMAGE_TYPES.contains (respContentType r)
        · rfl
        · exact absurd hq hctq
      rw [if_pos (by simpa using hctf)]
      exact ⟨fun _ => hctf, fun _ => rfl⟩
  · by_cases hctq : ALLOWED_IMAGE_TYPES.contains (respContentType r) = true
    · rw [if_neg (not_not_intro hctq)]
      constructor
      · intro hb
        exfalso
        split at hb
        · rename_i e2 hq
          injection hb with hb2
          rcases contentLengthCheck_cases r.headers max_size e2 hq with ⟨s, hs⟩ | ⟨s, hs⟩ <;>
            (rw [hs] at hb2; cases hb2)
        · split at hb
          · injection hb with hb2; cases hb2
          · cases hb
      · intro hfalse
        rw [hctq] at hfalse
        cases hfalse
    · have hctf : ALLOWED_IMAGE_TYPES.contains (respContentType r) = false := by
        cases hq : ALLOWED_IMAGE_TYPES.contains (respContentType r)
        · rfl
        · exact absurd hq hctq
      rw [if_pos (by simpa using hctf)]
      exact ⟨fun _ => hctf, fun _ => rfl⟩

/-- Witness for C5: the sample 200 response with `Content-Type: image/png` is
within the allowlist, so neither downloader produces the content-type failure;
the two literal content types behave as specified. -/
theorem content_type_allowlist_witness :
    validate_image_url parseIPv4 dnsEx urlExample.parsed = .ok ("93.184.216.34", "example.com") ∧
    (200 ≤ respStream.status ∧ respStream.status < 300) ∧
    ((download_image_securely parseIPv4 dnsEx (netOf respStream) urlExample
        MAX_IMAGE_SIZE_BYTES = .error (.badContentType (respContentType respStream)) ↔
      ALLOWED_IMAGE_TYPES.contains (respContentType respStream) = false) ∧
    (download_image_securely_async parseIPv4 dnsEx (netOf respStream) urlExample
        MAX_IMAGE_SIZE_BYTES = .error (.badContentType (respContentType respStream)) ↔
      ALLOWED_IMAGE_TYPES.contains (respContentType respStream) = false) ∧
    ALLOWED_IMAGE_TYPES.contains (normalizeContentType "text/html") = false ∧
    normalizeContentType "image/jpeg; charset=binary" = "image/jpeg" ∧
    ALLOWED_IMAGE_TYPES.contains (normalizeContentType "image/jpeg; charset=binary") = true) :=
  ⟨by decide, by decide,
    content_type_allowlist parseIPv4 dnsEx (netOf respStream) urlExample MAX_IMAGE_SIZE_BYTES
      "93.184.216.34" "example.com" respStream (by decide) rfl (by decide)⟩

/-- URL rejected at the string level (loopback hostname). -/
def urlLocal : URLInput :=
  { raw := "http://localhost:8000/image.jpg"
    parsed := { scheme := "http", host := "localhost", port := some 8000, path := "/image.jpg",
                query := "", fragment := "" } }

/-- C7: whenever validation rejects a URL, both downloaders fail with an
`ImageDownloadError` whose message is the validation reason prefixed by
`URL 验证失败: ` (so the original reason is contained in the failure message),
and the outcome is the same for every transport oracle — no network request to
the target influences it. -/
theorem validation_failure_wrapped (parseIP : String → Option IPFlags)
    (dns : String → Except SockErr (List String)) (u : URLInput) (max_size : Nat)
    (e : ValErr) (hfail : validate_image_url parseIP dns u.parsed = .error e) :
    ∀ net net2 : SentReq → NetOutcome,
      download_image_securely parseIP dns net u max_size =
        .error (.validationFailed (renderVal e)) ∧
      download_image_securely_async parseIP dns net2 u max_size =
        .error (.validationFailed (renderVal e)) ∧
      renderDl (.validationFailed (renderVal e)) = "URL 验证失败: " ++ renderVal e ∧
      isDownloadFailure (.validationFailed (renderVal e)) = true ∧
      strContains (renderDl (.validationFailed (renderVal e))) (renderVal e) = true := by
  intro net net2
  refine ⟨download_sync_of_validation_error parseIP dns net u max_size e hfail,
    download_async_of_validation_error parseIP dns net2 u max_size e hfail, rfl, rfl, ?_⟩
  exact strContains_append_self "URL 验证失败: " (renderVal e)

/-- Witness for C7: the loopback URL is rejected, and both downloaders report
the wrapped validation failure independently of the transport. -/
theorem validation_failure_wrapped_witness :
    validate_image_url parseIPv4 dnsEx urlLocal.parsed =
      .error (.blockedHostString "localhost") ∧
    (download_image_securely parseIPv4 dnsEx (netOf respStream) urlLocal MAX_IMAGE_SIZE_BYTES =
      .error (.validationFailed (renderVal (.blockedHostString "localhost"))) ∧
    download_image_securely_async parseIPv4 dnsEx (netOf respStream) urlLocal
        MAX_IMAGE_SIZE_BYTES =
      .error (.validationFailed (renderVal (.blockedHostString "localhost"))) ∧
    renderDl (.validationFailed (renderVal (.blockedHostString "localhost"))) =
      "URL 验证失败: " ++ renderVal (.blockedHostString "localhost") ∧
    isDownloadFailure (.validationFailed (renderVal (.blockedHostString "localhost"))) = true ∧
    strContains (renderDl (.validationFailed (renderVal (.blockedHostString "localhost"))))
      (renderVal (.blockedHostString "localhost")) = true) :=
  ⟨by decide,
    validation_failure_wrapped parseIPv4 dnsEx urlLocal MAX_IMAGE_SIZE_BYTES
      (.blockedHostString "localhost") (by decide) (netOf respStream) (netOf respStream)⟩

/-- Timeout reduction for the blocking downloader. -/
theorem download_sync_of_timeout (parseIP : String → Option IPFlags)
    (dns : String → Except SockErr (List String)) (net : SentReq → NetOutcome)
    (u : URLInput) (max_size : Nat) (ip hn : String)
    (hok : validate_image_url parseIP dns u.parsed = .ok (ip, hn))
    (hnet : net (requestOf u.parsed ip hn) = .timedOut) :
    download_image_securely parseIP dns net u max_size = .error (.timedOut u.raw) := by
  unfold download_image_securely
  split
  · rename_i e hv; rw [hok] at hv; cases hv
  · rename_i ip2 hn2 hv
    rw [hok] at hv
    injection hv with hv
    injection hv with hv1 hv2
    subst hv1
    subst hv2
    split
    · rfl
    · rename_i m heq; rw [hnet] at heq; cases heq
    · rename_i r2 heq; rw [hnet] at heq; cases heq

/-- Timeout reduction for the non-blocking downloader. -/
theorem download_async_of_timeout (parseIP : String → Option IPFlags)
    (dns : String → Except SockErr (List String)) (net : SentReq → NetOutcome)
    (u : URLInput) (max_size : Nat) (ip hn : String)
    (hok : validate_image_url parseIP dns u.parsed = .ok (ip, hn))
    (hnet : net (requestOf u.parsed ip hn) = .timedOut) :
    download_image_securely_async parseIP dns net u max_size = .error (.timedOut u.raw) := by
  unfold download_image_securely_async
  split
  · rename_i e hv; rw [hok] at hv; cases hv
  · rename_i ip2 hn2 hv
    rw [hok] at hv
    injection hv with hv
    injection hv with hv1 hv2
    subst hv1
    subst hv2
    split
    · rfl
    · rename_i m heq; rw [hnet] at heq; cases heq
    · rename_i r2 heq; rw [hnet] at heq; cases heq

/-- Connection-error reduction for the blocking downloader. -/
theorem download_sync_of_connError (parseIP : String → Option IPFlags)
    (dns : String → Except SockErr (List String)) (net : SentReq → NetOutcome)
    (u : URLInput) (max_size : Nat) (ip hn m : String)
    (hok : validate_image_url parseIP dns u.parsed = .ok (ip, hn))
    (hnet : net (requestOf u.parsed ip hn) = .connError m) :
    download_image_securely parseIP dns net u max_size = .error (.requestFailed m u.raw) := by
  unfold download_image_securely
  split
  · rename_i e hv; rw [hok] at hv; cases hv
  · rename_i ip2 hn2 hv
    rw [hok] at hv
    injection hv with hv
    injection hv with hv1 hv2
    subst hv1
    subst hv2
    split
    · rename_i heq; rw [hnet] at heq; cases heq
    · rename_i m2 heq
      rw [hnet] at heq
      injection heq with heq
      subst heq
      rfl
    · rename_i r2 heq; rw [hnet] at heq; cases heq

/-- Connection-error reduction for the non-blocking downloader. -/
theorem download_async_of_connError (parseIP : String → Option IPFlags)
    (dns : String → Except SockErr (List String)) (net : SentReq → NetOutcome)
    (u : URLInput) (max_size : Nat) (ip hn m : String)
    (hok : validate_image_url parseIP dns u.parsed = .ok (ip, hn))
    (hnet : net (requestOf u.parsed ip hn) = .connError m) :
    download_image_securely_async parseIP dns net u max_size =
      .error (.requestFailed m u.raw) := by
  unfold download_image_securely_async
  split
  · rename_i e hv; rw [hok] at hv; cases hv
  · rename_i ip2 hn2 hv
    rw [hok] at hv
    injection hv with hv
    injection hv with hv1 hv2
    subst hv1
    subst hv2
    split
    · rename_i heq; rw [hnet] at heq; cases heq
    · rename_i m2 heq
      rw [hnet] at heq
      injection heq with heq
      subst heq
      rfl
    · rename_i r2 heq; rw [hnet] at heq; cases heq

/-- Response with a non-2xx, non-error status (304 Not Modified) carrying an
allowed content type: the two downloaders treat it differently. -/
def resp304 : HResp :=
  { status := 304, headers := [("Content-Type", "image/png")], chunks := [[5, 6]] }

/-- C9 (amended): the blocking and non-blocking downloaders agree on every
input — same accepted URLs, same rejection reasons, same policy checks, equal
bytes on success — whenever every response the transport delivers has a status
that is either 2xx or in 400..599. (They diverge on other statuses, e.g. 1xx
and non-followed 3xx, where only the httpx-based downloader raises.) -/
theorem sync_async_equivalence (parseIP : String → Option IPFlags)
    (dns : String → Except SockErr (List String)) (net : SentReq → NetOutcome)
    (u : URLInput) (max_size : Nat)
    (hstat : ∀ (req : SentReq) (r : HResp), net req = .success r →
      (200 ≤ r.status ∧ r.status < 300) ∨ (400 ≤ r.status ∧ r.status < 600)) :
    download_image_securely parseIP dns net u max_size =
      download_image_securely_async parseIP dns net u max_size := by
  cases hv : validate_image_url parseIP dns u.parsed with
  | error e =>
    rw [download_sync_of_validation_error parseIP dns net u max_size e hv,
        download_async_of_validation_error parseIP dns net u max_size e hv]
  | ok pr =>
    obtain ⟨ip, hname⟩ := pr
    cases hnet : net (requestOf u.parsed ip hname) with
    | timedOut =>
      rw [download_sync_of_timeout parseIP dns net u max_size ip hname hv hnet,
          download_async_of_timeout parseIP dns net u max_size ip hname hv hnet]
    | connError m =>
      rw [download_sync_of_connError parseIP dns net u max_size ip hname m hv hnet,
          download_async_of_connError parseIP dns net u max_size ip hname m hv hnet]
    | success r =>
      rw [download_sync_resp parseIP dns net u max_size ip hname r hv hnet,
          download_async_resp parseIP dns net u max_size ip hname r hv hnet]
      rcases hstat _ r hnet with h2xx | h46
      · rw [if_neg (by omega : ¬ (400 ≤ r.status ∧ r.status < 600)),
            if_neg (not_not_intro h2xx)]
        by_cases hctq : ALLOWED_IMAGE_TYPES.contains (respContentType r) = true
        · rw [if_neg (not_not_intro hctq), if_neg (not_not_intro hctq)]
          have hinner : ∀ o : Option DlErr,
              (match o with
               | some e => (Except.error e : Except DlErr (List Nat))
               | none =>
                 match streamSync max_size [] r.chunks with
                 | .error buf => .error (.tooLargeStreamed buf.length max_size)
                 | .ok buf => .ok buf) =
              (match o with
               | some e => Except.error e
               | none =>
                 match streamAsync max_size [] r.chunks with
                 | .error buf => .error (.tooLargeStreamed buf.length max_size)
                 | .ok buf => .ok buf) := by
            intro o
            cases o with
            | some e => rfl
            | none =>
              rw [streamSync_eq_streamAsync max_size r.chunks [] (by simp)]
          exact hinner (contentLengthCheck r.headers max_size)
        · rw [if_pos (by simpa using hctq), if_pos (by simpa using hctq)]
      · rw [if_pos h46, if_pos (by omega : ¬ (200 ≤ r.status ∧ r.status < 300))]

/-- Witness for C9 (amended): on a well-behaved transport (a 200 response) the
two downloaders return the same bytes. -/
theorem sync_async_equivalence_witness :
    (∀ (req : SentReq) (r : HResp), netOf respStream req = .success r →
      (200 ≤ r.status ∧ r.status < 300) ∨ (400 ≤ r.status ∧ r.status < 600)) ∧
    download_image_securely parseIPv4 dnsEx (netOf respStream) urlExample MAX_IMAGE_SIZE_BYTES =
      download_image_securely_async parseIPv4 dnsEx (netOf respStream) urlExample
        MAX_IMAGE_SIZE_BYTES :=
  ⟨fun _ r hr => by
      injection hr with hr
      rw [← hr]
      exact Or.inl (by decide),
    sync_async_equivalence parseIPv4 dnsEx (netOf respStream) urlExample MAX_IMAGE_SIZE_BYTES
      (fun _ r hr => by
        injection hr with hr
        rw [← hr]
        exact Or.inl (by decide))⟩

/-- Counterexample for C9 as stated: on a final 304 response with an allowed
content type, the blocking downloader (requests `raise_for_status`: only
4xx/5xx raise) returns the body, while the non-blocking downloader (httpx
`raise_for_status`: every non-2xx raises) fails — the two modes do not produce
identical outcomes for this fixed response behaviour. -/
theorem sync_async_equivalence_cex :
    download_image_securely parseIPv4 dnsEx (netOf resp304) urlExample MAX_IMAGE_SIZE_BYTES =
      .ok [5, 6] ∧
    download_image_securely_async parseIPv4 dnsEx (netOf resp304) urlExample
        MAX_IMAGE_SIZE_BYTES = .error (.httpError 304 urlExample.raw) ∧
    (Except.ok [5, 6] : Except DlErr (List Nat)) ≠ .error (.httpError 304 urlExample.raw) := by
  exact ⟨by decide, by decide, by decide⟩

/-- C8 (amended): once a URL is accepted and the transport delivers a final
response, the blocking downloader fails with the `HTTP 错误` failure exactly
for statuses in 400..599 and the non-blocking downloader for every non-2xx
status; in both cases the failure message contains the decimal status code.
(Other non-2xx statuses, e.g. a non-followed 304, are not treated as HTTP
errors by the blocking downloader — see the counterexample.) -/
theorem http_status_failure (parseIP : String → Option IPFlags)
    (dns : String → Except SockErr (List String)) (net : SentReq → NetOutcome)
    (u : URLInput) (max_size : Nat) (ip hn : String) (r : HResp)
    (hok : validate_image_url parseIP dns u.parsed = .ok (ip, hn))
    (hnet : net (requestOf u.parsed ip hn) = .success r) :
    (400 ≤ r.status ∧ r.status < 600 →
      download_image_securely parseIP dns net u max_size =
        .error (.httpError r.status u.raw) ∧
      renderDl (.httpError r.status u.raw) =
        "HTTP 错误: " ++ natToStr r.status ++ " - " ++ u.raw ∧
      strContains (renderDl (.httpError r.status u.raw)) (natToStr r.status) = true) ∧
    (¬ (200 ≤ r.status ∧ r.status < 300) →
      download_image_securely_async parseIP dns net u max_size =
        .error (.httpError r.status u.raw) ∧
      strContains (renderDl (.httpError r.status u.raw)) (natToStr r.status) = true) := by
  have hcontain : strContains (renderDl (.httpError r.status u.raw)) (natToStr r.status) = true := by
    have h := strContains_middle "HTTP 错误: " (natToStr r.status) (" - " ++ u.raw)
    have hassoc : "HTTP 错误: " ++ natToStr r.status ++ (" - " ++ u.raw) =
        "HTTP 错误: " ++ natToStr r.status ++ " - " ++ u.raw := by
      simp [String.append_assoc]
    show strContains ("HTTP 错误: " ++ natToStr r.status ++ " - " ++ u.raw)
      (natToStr r.status) = true
    rw [← hassoc]
    exact h
  constructor
  · intro h46
    refine ⟨?_, rfl, hcontain⟩
    rw [download_sync_resp parseIP dns net u max_size ip hn r hok hnet, if_pos h46]
  · intro h2
    refine ⟨?_, hcontain⟩
    rw [download_async_resp parseIP dns net u max_size ip hn r hok hnet, if_pos h2]

/-- Response used for the HTTP-404 scenario. -/
def resp404 : HResp := { status := 404, headers := [], chunks := [] }

/-- Witness for C8 (amended): a mocked 404 origin yields the `HTTP 错误`
failure containing `404` in both downloaders. -/
theorem http_status_failure_witness :
    validate_image_url parseIPv4 dnsEx urlExample.parsed = .ok ("93.184.216.34", "example.com") ∧
    (400 ≤ resp404.status ∧ resp404.status < 600) ∧
    natToStr 404 = "404" ∧
    (download_image_securely parseIPv4 dnsEx (netOf resp404) urlExample MAX_IMAGE_SIZE_BYTES =
        .error (.httpError resp404.status urlExample.raw) ∧
      renderDl (.httpError resp404.status urlExample.raw) =
        "HTTP 错误: " ++ natToStr resp404.status ++ " - " ++ urlExample.raw ∧
      strContains (renderDl (.httpError resp404.status urlExample.raw))
        (natToStr resp404.status) = true) :=
  ⟨by decide, by decide, by decide,
    (http_status_failure parseIPv4 dnsEx (netOf resp404) urlExample MAX_IMAGE_SIZE_BYTES
      "93.184.216.34" "example.com" resp404 (by decide) rfl).1 (by decide)⟩

/-- Counterexample for C8 as stated: a final 304 (non-2xx) response does not
make the blocking download fail — it succeeds and returns the body, so not
every non-2xx final status yields a `DownloadFailure` with the status code. -/
theorem http_status_failure_cex :
    resp304.status = 304 ∧ (304 < 200 ∨ 300 ≤ 304) ∧
    download_image_securely parseIPv4 dnsEx (netOf resp304) urlExample MAX_IMAGE_SIZE_BYTES =
      .ok [5, 6] := by
  exact ⟨rfl, by decide, by decide⟩

/-- Characters that terminate the authority component of an absolute URL. -/
def notUrlStop (c : Char) : Bool := c != '/' && c != '?' && c != '#'

/-- Drops everything up to and including the first `://` separator. -/
def afterSchemeSep : List Char → List Char
  | [] => []
  | c :: rest =>
    if c == ':' then
      match rest with
      | '/' :: '/' :: r => r
      | _ => afterSchemeSep rest
    else afterSchemeSep rest

/-- Authority (network location) component of an absolute URL string: the
host-and-port part a client connects to. -/
def authorityOf (s : String) : String :=
  ⟨(afterSchemeSep s.data).takeWhile notUrlStop⟩

/-- The separator scanner skips a colon-free prefix. -/
theorem afterSchemeSep_append (l rest : List Char) (hl : ∀ c ∈ l, c ≠ ':') :
    afterSchemeSep (l ++ ':' :: '/' :: '/' :: rest) = rest := by
  induction l with
  | nil => rfl
  | cons a l ih =>
    have ha : a ≠ ':' := hl a (List.mem_cons_self a l)
    show afterSchemeSep (a :: (l ++ ':' :: '/' :: '/' :: rest)) = rest
    unfold afterSchemeSep
    rw [if_neg (by simpa using ha)]
    exact ih (fun c hc => hl c (List.mem_cons_of_mem a hc))

/-- `takeWhile` passes over a block whose characters all satisfy the
predicate. -/
theorem takeWhile_append_of_all (p : Char → Bool) :
    ∀ (l1 l2 : List Char), (∀ c ∈ l1, p c = true) →
      (l1 ++ l2).takeWhile p = l1 ++ l2.takeWhile p := by
  intro l1
  induction l1 with
  | nil => intro l2 _; rfl
  | cons a l ih =>
    intro l2 hall
    have ha := hall a (List.mem_cons_self a l)
    simp [List.takeWhile_cons, ha, ih l2 (fun c hc => hall c (List.mem_cons_of_mem a hc))]

/-- Digit characters are not URL delimiters. -/
theorem digChar_notUrlStop (d : Nat) : notUrlStop (digChar d) = true := by
  unfold digChar
  repeat first | decide | split

/-- All characters produced by the decimal renderer are digits, hence never URL
delimiters. -/
theorem natDigitsAux_notUrlStop :
    ∀ (fuel n : Nat) (acc : List Char), (∀ c ∈ acc, notUrlStop c = true) →
      ∀ c ∈ natDigitsAux fuel n acc, notUrlStop c = true := by
  intro fuel
  induction fuel with
  | zero => intro n acc hacc; exact hacc
  | succ fuel ih =>
    intro n acc hacc
    unfold natDigitsAux
    by_cases hn : n < 10
    · rw [if_pos hn]
      intro c hc
      rcases List.mem_cons.mp hc with rfl | hm
      · exact digChar_notUrlStop n
      · exact hacc c hm
    · rw [if_neg hn]
      refine ih (n / 10) (digChar (n % 10) :: acc) ?_
      intro c hc
      rcases List.mem_cons.mp hc with rfl | hm
      · exact digChar_notUrlStop (n % 10)
      · exact hacc c hm

/-- The decimal rendering of a number has no URL delimiters. -/
theorem natToStr_notUrlStop (n : Nat) : ∀ c ∈ (natToStr n).data, notUrlStop c = true := by
  intro c hc
  exact natDigitsAux_notUrlStop (n + 1) n [] (by intro c2 hc2; cases hc2) c hc

/-- A string whose character sequence is empty or starts with a URL
delimiter. -/
def stopHeaded (s : String) : Prop :=
  s.data = [] ∨ ∃ c t, s.data = c :: t ∧ notUrlStop c = false

/-- Concatenation preserves `stopHeaded`. -/
theorem stopHeaded_append (s1 s2 : String) (h1 : stopHeaded s1) (h2 : stopHeaded s2) :
    stopHeaded (s1 ++ s2) := by
  rcases h1 with he | ⟨c, t, hc, hst⟩
  · rcases h2 with he2 | ⟨c, t, hc, hst⟩
    · left
      rw [String.data_append, he, he2]
      rfl
    · right
      exact ⟨c, t, by rw [String.data_append, he, hc]; rfl, hst⟩
  · right
    exact ⟨c, t ++ s2.data, by rw [String.data_append, hc]; rfl, hst⟩

/-- `takeWhile notUrlStop` of a `stopHeaded` string is empty. -/
theorem takeWhile_stopHeaded (s : String) (h : stopHeaded s) :
    s.data.takeWhile notUrlStop = [] := by
  rcases h with he | ⟨c, t, hc, hst⟩
  · rw [he]
    rfl
  · rw [hc]
    simp [List.takeWhile_cons, hst]

/-- A string that starts with `/` has a slash as its first character. -/
theorem startsWith_slash (s : String) (h : strStartsWith s "/" = true) :
    ∃ t, s.data = '/' :: t := by
  unfold strStartsWith at h
  cases hd : s.data with
  | nil => rw [hd] at h; cases h
  | cons a t =>
    rw [hd] at h
    rw [show ("/" : String).data = ['/'] from rfl] at h
    simp only [List.isPrefixOf, Bool.and_true, beq_iff_eq] at h
    exact ⟨t, by rw [h]⟩

/-- The re-emitted path component is empty or starts with a delimiter. -/
theorem stopHeaded_path (url : URL) : stopHeaded (pathPartStr url) := by
  unfold pathPartStr
  by_cases hp : url.path = ""
  · rw [if_pos hp]
    left
    rfl
  · rw [if_neg hp]
    by_cases hs : strStartsWith url.path "/" = true
    · rw [if_pos hs]
      obtain ⟨t, ht⟩ := startsWith_slash url.path hs
      right
      exact ⟨'/', t, ht, rfl⟩
    · rw [if_neg hs]
      right
      exact ⟨'/', url.path.data, by rw [String.data_append]; rfl, rfl⟩

/-- The re-emitted query component is empty or starts with `?`. -/
theorem stopHeaded_query (url : URL) : stopHeaded (queryPartStr url) := by
  unfold queryPartStr
  by_cases hq : url.query = ""
  · rw [if_pos hq]
    left
    rfl
  · rw [if_neg hq]
    right
    exact ⟨'?', url.query.data, by rw [String.data_append]; rfl, rfl⟩

/-- The re-emitted fragment component is empty or starts with `#`. -/
theorem stopHeaded_frag (url : URL) : stopHeaded (fragPartStr url) := by
  unfold fragPartStr
  by_cases hf : url.fragment = ""
  · rw [if_pos hf]
    left
    rfl
  · rw [if_neg hf]
    right
    exact ⟨'#', url.fragment.data, by rw [String.data_append]; rfl, rfl⟩

/-- The authority of the rewritten request target is exactly the vetted IP
followed by the (defaulted) port, for any address literal free of URL
delimiters. -/
theorem authorityOf_target (url : URL) (ip : String)
    (hscheme : url.scheme = "http" ∨ url.scheme = "https")
    (hip : ∀ c ∈ ip.data, notUrlStop c = true) :
    authorityOf (target_url url ip) = ip ++ ":" ++ natToStr (port_or_default url) := by
  unfold authorityOf target_url rebuilt_netloc
  have hsch : ∀ c ∈ url.scheme.data, c ≠ ':' := by
    rcases hscheme with h | h <;> rw [h] <;> decide
  have hallnet : ∀ c ∈ (ip ++ ":" ++ natToStr (port_or_default url)).data,
      notUrlStop c = true := by
    intro c hc
    rw [String.data_append, String.data_append] at hc
    rcases List.mem_append.mp hc with hc1 | hc2
    · rcases List.mem_append.mp hc1 with hc3 | hc4
      · exact hip c hc3
      · have hcc : c = ':' := by simpa using hc4
        rw [hcc]
        rfl
    · exact natToStr_notUrlStop _ c hc2
  have hdata : (url.scheme ++ "://" ++ (ip ++ ":" ++ natToStr (port_or_default url)) ++
      pathPartStr url ++ queryPartStr url ++ fragPartStr url).data =
      url.scheme.data ++ ':' :: '/' :: '/' ::
        ((ip ++ ":" ++ natToStr (port_or_default url)).data ++
          (pathPartStr url ++ queryPartStr url ++ fragPartStr url).data) := by
    simp only [String.data_append, List.append_assoc,
      show ("://" : String).data = [':', '/', '/'] from rfl, List.cons_append, List.nil_append]
  rw [hdata, afterSchemeSep_append _ _ hsch,
    takeWhile_append_of_all notUrlStop _ _ hallnet,
    takeWhile_stopHeaded _ (stopHeaded_append _ _
      (stopHeaded_append _ _ (stopHeaded_path url) (stopHeaded_query url))
      (stopHeaded_frag url)),
    List.append_nil]

/-- C2 (amended): for every URL the validator accepts, the outbound request's
target URL is the original URL with its network location replaced by exactly
`ip:port` — the vetted IP literal followed by the URL's port (an absent, and
also a zero, port falls back to 443 for https and 80 otherwise) — with scheme,
path, query and fragment preserved verbatim, and the Host header equal to the
hostname returned by validation (the URL's host, lower-cased). The original
hostname no longer appears in the authority, though it may still occur in the
path or query (see the counterexample). -/
theorem rebinding_request_characterization (parseIP : String → Option IPFlags)
    (dns : String → Except SockErr (List String)) (url : URL) (ip hn : String)
    (hok : validate_image_url parseIP dns url = .ok (ip, hn))
    (hip : ∀ c ∈ ip.data, notUrlStop c = true) :
    hn = lowerStr url.host ∧
    (requestOf url ip hn).hostHeader = hn ∧
    (requestOf url ip hn).target =
      url.scheme ++ "://" ++ (ip ++ ":" ++ natToStr (port_or_default url)) ++
        pathPartStr url ++ queryPartStr url ++ fragPartStr url ∧
    authorityOf (requestOf url ip hn).target = ip ++ ":" ++ natToStr (port_or_default url) ∧
    strContains (requestOf url ip hn).target ip = true ∧
    (url.port = none → port_or_default url = default_port url.scheme) ∧
    (∀ p, url.port = some p → p ≠ 0 → port_or_default url = p) ∧
    default_port "https" = 443 ∧ default_port "http" = 80 := by
  obtain ⟨hsch, hhn, -⟩ := validate_ok_inv parseIP dns url ip hn hok
  have hscheme : url.scheme = "http" ∨ url.scheme = "https" := by
    simpa [ALLOWED_SCHEMES] using hsch
  refine ⟨hhn, rfl, rfl, authorityOf_target url ip hscheme hip, ?_, ?_, ?_, rfl, rfl⟩
  · have h := strContains_middle (url.scheme ++ "://") ip
      (":" ++ natToStr (port_or_default url) ++ pathPartStr url ++ queryPartStr url ++
        fragPartStr url)
    have he : url.scheme ++ "://" ++ ip ++
        (":" ++ natToStr (port_or_default url) ++ pathPartStr url ++ queryPartStr url ++
          fragPartStr url) = (requestOf url ip hn).target := by
      show _ = target_url url ip
      unfold target_url rebuilt_netloc
      simp [String.append_assoc]
    rw [← he]
    exact h
  · intro hnone
    unfold port_or_default
    split
    · rename_i p hp
      rw [hnone] at hp
      cases hp
    · rfl
  · intro p hp hp0
    unfold port_or_default
    split
    · rename_i p2 hp2
      rw [hp] at hp2
      injection hp2 with hp2
      subst hp2
      rw [if_neg (by simpa using hp0)]
    · rename_i hp2
      rw [hp] at hp2
      cases hp2

/-- Witness for C2 (amended): the accepted sample URL is rewritten to target
`93.184.216.34:443` while the Host header carries `example.com`. -/
theorem rebinding_request_characterization_witness :
    validate_image_url parseIPv4 dnsEx urlExample.parsed =
      .ok ("93.184.216.34", "example.com") ∧
    (∀ c ∈ ("93.184.216.34" : String).data, notUrlStop c = true) ∧
    ("example.com" = lowerStr urlExample.parsed.host ∧
    (requestOf urlExample.parsed "93.184.216.34" "example.com").hostHeader = "example.com" ∧
    (requestOf urlExample.parsed "93.184.216.34" "example.com").target =
      urlExample.parsed.scheme ++ "://" ++
        ("93.184.216.34" ++ ":" ++ natToStr (port_or_default urlExample.parsed)) ++
        pathPartStr urlExample.parsed ++ queryPartStr urlExample.parsed ++
        fragPartStr urlExample.parsed ∧
    authorityOf (requestOf urlExample.parsed "93.184.216.34" "example.com").target =
      "93.184.216.34" ++ ":" ++ natToStr (port_or_default urlExample.parsed) ∧
    strContains (requestOf urlExample.parsed "93.184.216.34" "example.com").target
      "93.184.216.34" = true ∧
    (urlExample.parsed.port = none →
      port_or_default urlExample.parsed = default_port urlExample.parsed.scheme) ∧
    (∀ p, urlExample.parsed.port = some p → p ≠ 0 → port_or_default urlExample.parsed = p) ∧
    default_port "https" = 443 ∧ default_port "http" = 80) :=
  ⟨by decide, by decide,
    rebinding_request_characterization parseIPv4 dnsEx urlExample.parsed
      "93.184.216.34" "example.com" (by decide) (by decide)⟩

/-- URL whose path textually contains its own hostname. -/
def urlPathHost : URLInput :=
  { raw := "https://example.com/example.com.jpg"
    parsed := { scheme := "https", host := "example.com", port := none,
                path := "/example.com.jpg", query := "", fragment := "" } }

/-- Counterexample for C2 as stated: for this accepted URL the rewritten
request target still contains the original hostname (inside the path), so the
rewritten URL is not free of the hostname — only the authority is. -/
theorem rebinding_request_characterization_cex :
    validate_image_url parseIPv4 dnsEx urlPathHost.parsed =
      .ok ("93.184.216.34", "example.com") ∧
    (requestOf urlPathHost.parsed "93.184.216.34" "example.com").target =
      "https://93.184.216.34:443/example.com.jpg" ∧
    strContains (requestOf urlPathHost.parsed "93.184.216.34" "example.com").target
      "example.com" = true := by
  exact ⟨by decide, by decide, by decide⟩

/-- C6 (amended): on success the validator returns the pair `(ip, hostname)`
where `hostname` is the URL's host lower-cased (the hostname component produced
by URL parsing, otherwise unchanged) and `ip` heads the list of parseable
addresses in resolver order (deduplicated keeping first occurrences), all of
which passed every safety check. -/
theorem validator_result_characterization (parseIP : String → Option IPFlags)
    (dns : String → Except SockErr (List String)) (url : URL) (ip hn : String)
    (hok : validate_image_url parseIP dns url = .ok (ip, hn)) :
    hn = lowerStr url.host ∧
    ∃ rawAddrs,
      dns (lowerStr url.host) = .ok rawAddrs ∧
      (∀ s ∈ dedupFirst rawAddrs, ∀ f, parseIP s = some f → unsafeFlags f = false) ∧
      ∃ rest, (dedupFirst rawAddrs).filter (fun s => (parseIP s).isSome) = ip :: rest := by
  obtain ⟨-, hhn, rawAddrs, public_ips, hdns, hchk, rest, hhead⟩ :=
    validate_ok_inv parseIP dns url ip hn hok
  obtain ⟨hfil, hsafe⟩ :=
    checkIPs_ok_inv parseIP (lowerStr url.host) (dedupFirst rawAddrs) public_ips hchk
  exact ⟨hhn, rawAddrs, hdns, hsafe, rest, by rw [← hfil, hhead]⟩

/-- Witness for C6 (amended): with two resolver answers whose second entry is a
duplicate, the returned address is the head of the deduplicated list. -/
theorem validator_result_characterization_witness :
    validate_image_url parseIPv4 dnsEx urlExample.parsed =
      .ok ("93.184.216.34", "example.com") ∧
    ("example.com" = lowerStr urlExample.parsed.host ∧
    ∃ rawAddrs,
      dnsEx (lowerStr urlExample.parsed.host) = .ok rawAddrs ∧
      (∀ s ∈ dedupFirst rawAddrs, ∀ f, parseIPv4 s = some f → unsafeFlags f = false) ∧
      ∃ rest, (dedupFirst rawAddrs).filter (fun s => (parseIPv4 s).isSome) =
        "93.184.216.34" :: rest) :=
  ⟨by decide,
    validator_result_characterization parseIPv4 dnsEx urlExample.parsed
      "93.184.216.34" "example.com" (by decide)⟩

/-- URL with mixed-case host characters. -/
def urlCased : URLInput :=
  { raw := "https://Example.COM/x.jpg"
    parsed := { scheme := "https", host := "Example.COM", port := none, path := "/x.jpg",
                query := "", fragment := "" } }

/-- Counterexample for C6 as stated: the URL's host is `Example.COM`, yet the
validator returns hostname `example.com` — the host string is lower-cased by
URL parsing, not returned unchanged. -/
theorem validator_result_characterization_cex :
    validate_image_url parseIPv4 dnsEx urlCased.parsed =
      .ok ("93.184.216.34", "example.com") ∧
    urlCased.parsed.host = "Example.COM" ∧
    ("example.com" : String) ≠ "Example.COM" := by
  exact ⟨by decide, rfl, by decide⟩

end SSRF
